import Mathlib

/-!
Shallow embedding of `src/examples/topology.rs` (rust-cpuid repository).

The example decodes CPU topology: it derives SMT/core bit shifts either from
the extended (x2APIC) topology leaf or from legacy capacity/cache leaves,
collects one APIC id per logical processor by pinning a thread to each core,
and decomposes each raw id into (package, core, smt) components.

Machine integers are modelled as `Nat` with explicit reduction modulo `2 ^ 32`
(resp. `2 ^ 8`) where Rust's fixed-width arithmetic truncates.  Rust panics
(`panic!`, `unreachable!`, arithmetic overflow in debug builds) are modelled
as `Except` errors.  The CPUID library and the affinity library are external
collaborators of this example; their records are modelled as plain structures
holding the already-parsed fields that the example reads.
-/

namespace RustCpuid

/-- Topology level type as consumed from the cpuid collaborator.  The example
only distinguishes SMT, Core, and everything else (`Unknown`). -/
inductive TopologyType where
  | SMT
  | Core
  | Unknown
deriving DecidableEq, Repr, Inhabited

/-- One record of the extended-topology (x2APIC) leaf stream, with the fields
that `topology.rs` reads. -/
structure ExtendedTopologyLevel where
  level_number : Nat
  level_type : TopologyType
  processors : Nat
  shift_right_for_next_apic_id : Nat
deriving DecidableEq, Repr, Inhabited

/-- Feature-information leaf fields read by the example (both are `u8`). -/
structure FeatureInfo where
  max_logical_processor_ids : Nat
  initial_local_apic_id : Nat
deriving DecidableEq, Repr, Inhabited

/-- Processor-capacity leaf fields read by the example (AMD path).
`num_phys_threads` is a `usize` in the collaborator; the example converts it
to `u8` with `try_into().unwrap()`. -/
structure ProcessorCapacityInfo where
  num_phys_threads : Nat
  apic_id_size : Nat
deriving DecidableEq, Repr, Inhabited

/-- Cache-parameter record field read by the example (Intel path). -/
structure CacheParameter where
  max_cores_for_package : Nat
deriving DecidableEq, Repr, Inhabited

/-- The cpuid state the example queries: each leaf is optional, mirroring the
`Option`-returning accessors of the collaborator. -/
structure CpuState where
  feature_info : Option FeatureInfo
  extended_topology_info : Option (List ExtendedTopologyLevel)
  processor_capacity_feature_info : Option ProcessorCapacityInfo
  cache_parameters : Option (List CacheParameter)
deriving DecidableEq, Repr, Inhabited

/-- Every way the example can abort (Rust panics / `unreachable!`), plus the
debug-build arithmetic panics of the legacy mask computation. -/
inductive TopoError where
  | UnsupportedCpu
  | UnsupportedTopologyCategory
  | TryIntoPanic
  | NextPowOverflow
  | DivByZero
  | SubOverflow
  | ShiftOverflow
deriving DecidableEq, Repr, Inhabited

/-- Decomposed id, mirroring the `(pkg, core, smt)` triples the example
prints. -/
structure DecodedId where
  pkg_id : Nat
  core_id : Nat
  smt_id : Nat
deriving DecidableEq, Repr, Inhabited

/-- All-ones 32-bit value, `u32::max_value()`. -/
def u32Max : Nat := 2 ^ 32 - 1

/-- All-ones 8-bit value, `u8::max_value()`. -/
def u8Max : Nat := 2 ^ 8 - 1

/-- Rust `u32` left shift (value truncated to 32 bits; the example only ever
shifts by CPUID shift amounts, which are below 32). -/
def shl32 (x s : Nat) : Nat := (x <<< s) % 2 ^ 32

/-- Rust `u8` left shift (value truncated to 8 bits). -/
def shl8 (x s : Nat) : Nat := (x <<< s) % 2 ^ 8

/-- Line 94: `let smt_select_mask = !(u32::max_value() << smt_x2apic_shift)`. -/
def smt_select_mask (smt_x2apic_shift : Nat) : Nat :=
  u32Max ^^^ shl32 u32Max smt_x2apic_shift

/-- Line 95: `let core_select_mask = (!((u32::max_value()) << core_x2apic_shift)) ^ smt_select_mask`. -/
def core_select_mask (smt_x2apic_shift core_x2apic_shift : Nat) : Nat :=
  (u32Max ^^^ shl32 u32Max core_x2apic_shift) ^^^ smt_select_mask smt_x2apic_shift

/-- Line 96: `let pkg_select_mask = u32::max_value() << core_x2apic_shift`. -/
def pkg_select_mask (core_x2apic_shift : Nat) : Nat :=
  shl32 u32Max core_x2apic_shift

/-- Lines 98-100: decomposition of one raw x2APIC id with the three masks. -/
def decompose (smt_x2apic_shift core_x2apic_shift x2apic_id : Nat) : DecodedId :=
  { pkg_id := (x2apic_id &&& pkg_select_mask core_x2apic_shift) >>> core_x2apic_shift
    core_id := (x2apic_id &&& core_select_mask smt_x2apic_shift core_x2apic_shift) >>> smt_x2apic_shift
    smt_id := x2apic_id &&& smt_select_mask smt_x2apic_shift }

/-- Lines 109-119, the `while` loop of `cpuid_bits_needed`: the loop runs
while `cnt > 0 && (mask & count) != mask`, halving `mask` and decrementing
`cnt` each iteration; `cnt` is the structural fuel. -/
def bitsNeededLoop (count : Nat) : Nat → Nat → Nat
  | _, 0 => 0
  | mask, cnt + 1 =>
    if (mask &&& count) ≠ mask then bitsNeededLoop count (mask >>> 1) cnt
    else cnt + 1

/-- Lines 109-119: `fn cpuid_bits_needed(count: u8) -> u8`, starting from
`mask = 0x80`, `cnt = 8`. -/
def cpuid_bits_needed (count : Nat) : Nat := bitsNeededLoop count 0x80 8

/-- Lines 76-86: the shift-recording loop of `enumerate_with_x2apic_ids`.
The accumulator is the pair of mutable locals `(smt_x2apic_shift,
core_x2apic_shift)`; a non-SMT, non-Core level hits the
`panic!("Topology category not supported.")` arm. -/
def scanLevels : List ExtendedTopologyLevel → Nat × Nat → Except TopoError (Nat × Nat)
  | [], acc => .ok acc
  | l :: ls, (s, c) =>
    match l.level_type with
    | .SMT => scanLevels ls (l.shift_right_for_next_apic_id, c)
    | .Core => scanLevels ls (s, l.shift_right_for_next_apic_id)
    | .Unknown => .error .UnsupportedTopologyCategory

/-- Lines 69-88: both shifts start at 0 and are updated by the scan loop. -/
def compute_shifts (levels : List ExtendedTopologyLevel) : Except TopoError (Nat × Nat) :=
  scanLevels levels (0, 0)

/-- Insertion of one id into an ascending list (model of the ascending
`sort_unstable` at lines 92 and 170; on `Nat` ids stability is irrelevant). -/
def insertSorted (x : Nat) : List Nat → List Nat
  | [] => [x]
  | y :: ys => if x ≤ y then x :: y :: ys else y :: insertSorted x ys

/-- Ascending sort of the gathered id list. -/
def sortIds (l : List Nat) : List Nat := l.foldr insertSorted []

/-- Lines 72-88: the `map_or_else` over the extended leaf.  When the leaf is
absent only a message is printed and both shifts stay 0; otherwise the scan
loop runs (and can hit its `panic!` arm). -/
def x2apicShifts (cpu : CpuState) : Except TopoError (Nat × Nat) :=
  match cpu.extended_topology_info with
  | none => .ok (0, 0)
  | some levels => compute_shifts levels

/-- Lines 67-107: `enumerate_with_x2apic_ids`, with the gathered id list as a
parameter (the gathering itself is modelled separately). -/
def enumerate_with_x2apic_ids (cpu : CpuState) (gathered : List Nat) :
    Except TopoError (List (Nat × DecodedId)) := do
  let sc ← x2apicShifts cpu
  pure ((sortIds gathered).map fun x2apic_id => (x2apic_id, decompose sc.1 sc.2 x2apic_id))

/-- Lines 121-154: `get_processor_limits`.  The AMD capacity leaf wins when
present (`try_into().unwrap()` panics when `num_phys_threads` exceeds `u8`);
otherwise the Intel cache-parameter leaf is consulted, with
`max_logical_processor_ids` defaulting to 1 when the feature leaf is absent
and `smt_max_cores_for_package` taken from the record at enumeration index 0
only; absence of both leaves hits the `unreachable!` arm. -/
def get_processor_limits (cpu : CpuState) : Except TopoError (Nat × Nat) :=
  match cpu.processor_capacity_feature_info with
  | some info =>
    if info.num_phys_threads < 2 ^ 8 then .ok (info.num_phys_threads, info.apic_id_size)
    else .error .TryIntoPanic
  | none =>
    match cpu.cache_parameters with
    | some cparams =>
      let max_logical_processor_ids :=
        (cpu.feature_info.map (fun f => f.max_logical_processor_ids)).getD 1
      let smt_max_cores_for_package :=
        (cparams.enum.foldl
          (fun acc p => if p.1 = 0 then p.2.max_cores_for_package % 2 ^ 8 else acc) 1)
      .ok (max_logical_processor_ids, smt_max_cores_for_package)
    | none => .error .UnsupportedCpu

/-- Mathematical value of `u8::next_power_of_two` over the `u8` input domain:
the smallest power of two at least `n` (and 1 for 0), the doubling search
unrolled over the eight candidate powers.  Inputs above 128 reach 256, which
does not fit `u8`: the Rust call panics there in debug builds (wraps to 0 in
release); that abort is modelled at the use site in `legacy_smt_arg`. -/
def nextPow2 (n : Nat) : Nat :=
  if n ≤ 1 then 1
  else if n ≤ 2 then 2
  else if n ≤ 4 then 4
  else if n ≤ 8 then 8
  else if n ≤ 16 then 16
  else if n ≤ 32 then 32
  else if n ≤ 64 then 64
  else if n ≤ 128 then 128
  else 256

/-- Lines 159-161, the argument of the first `cpuid_bits_needed` call:
`(max_logical_processor_ids.next_power_of_two() / smt_max_cores_for_package) - 1`.
Rust evaluates `next_power_of_two` first (its `u8` overflow for inputs above
128 is a debug-build panic), then the division (zero divisor panics), then
the `u8` subtraction (underflow panics in debug builds). -/
def legacy_smt_arg (max_logical_processor_ids smt_max_cores_for_package : Nat) :
    Except TopoError Nat :=
  if 2 ^ 8 ≤ nextPow2 max_logical_processor_ids then .error .NextPowOverflow
  else if smt_max_cores_for_package = 0 then .error .DivByZero
  else if nextPow2 max_logical_processor_ids / smt_max_cores_for_package = 0 then
    .error .SubOverflow
  else .ok (nextPow2 max_logical_processor_ids / smt_max_cores_for_package - 1)

/-- Lines 156-182: `enumerate_with_xapic_ids`, with the gathered id list as a
parameter.  An `u8` shift by 8 or more (`u8::max_value() << width`) is a Rust
panic in debug builds, modelled as `ShiftOverflow`; `core_mask_width`
subtraction cannot underflow here because a zero divisor already panicked. -/
def enumerate_with_xapic_ids (cpu : CpuState) (gathered : List Nat) :
    Except TopoError (List (Nat × DecodedId)) := do
  let lim ← get_processor_limits cpu
  let arg ← legacy_smt_arg lim.1 lim.2
  let smt_mask_width := cpuid_bits_needed arg
  if 8 ≤ smt_mask_width then throw .ShiftOverflow
  let smt_select_mask8 := u8Max ^^^ shl8 u8Max smt_mask_width
  let core_mask_width := cpuid_bits_needed (lim.2 - 1)
  if 8 ≤ core_mask_width + smt_mask_width then throw .ShiftOverflow
  let core_only_select_mask :=
    (u8Max ^^^ shl8 u8Max (core_mask_width + smt_mask_width)) ^^^ smt_select_mask8
  let pkg_select_mask8 := shl8 u8Max (core_mask_width + smt_mask_width)
  pure ((sortIds gathered).map fun xapic_id =>
    (xapic_id,
      { pkg_id := (xapic_id &&& pkg_select_mask8) >>> (core_mask_width + smt_mask_width)
        core_id := (xapic_id &&& core_only_select_mask) >>> smt_mask_width
        smt_id := xapic_id &&& smt_select_mask8 }))

/-- Lines 197-210, the display loop of `main` over the reversed level list:
a non-SMT, non-Core level hits `panic!("Topology category not supported.")`. -/
def checkDisplayLevels : List ExtendedTopologyLevel → Except TopoError Unit
  | [] => .ok ()
  | l :: ls =>
    match l.level_type with
    | .SMT => checkDisplayLevels ls
    | .Core => checkDisplayLevels ls
    | .Unknown => .error .UnsupportedTopologyCategory

/-- Lines 191-212: the `map_or_else` over the extended leaf in `main` — when
the leaf is present the display loop runs over the reversed level list. -/
def displayTopology (cpu : CpuState) : Except TopoError Unit :=
  match cpu.extended_topology_info with
  | none => .ok ()
  | some levels => checkDisplayLevels levels.reverse

/-- Lines 184-219: `main`.  Brand-string printing has no decoding effect; the
display loop runs when the extended leaf is present; then
`enumerate_with_xapic_ids` and `enumerate_with_x2apic_ids` are BOTH invoked,
unconditionally and in that order. -/
def mainRun (cpu : CpuState) (gatheredXapic gatheredX2apic : List Nat) :
    Except TopoError (List (Nat × DecodedId) × List (Nat × DecodedId)) := do
  let _ ← displayTopology cpu
  let a ← enumerate_with_xapic_ids cpu gatheredXapic
  let b ← enumerate_with_x2apic_ids cpu gatheredX2apic
  pure (a, b)

instance {ε α : Type} [DecidableEq ε] [DecidableEq α] : DecidableEq (Except ε α) := fun x y =>
  match x, y with
  | .ok a, .ok b => if h : a = b then .isTrue (by simp [h]) else .isFalse (by simp [h])
  | .error a, .error b => if h : a = b then .isTrue (by simp [h]) else .isFalse (by simp [h])
  | .ok _, .error _ => .isFalse (by simp)
  | .error _, .ok _ => .isFalse (by simp)

/-- Per-logical-processor environment seen by one unit of the id collectors:
whether pinning (or anything else inside the spawned closure) panics, what the
feature leaf shows on that processor, and what the first extended-topology
record shows there (`none` = leaf absent, `some none` = leaf present but the
iterator is empty, so `.unwrap()` panics). -/
structure CoreEnv where
  pinPanics : Bool
  feature_info : Option FeatureInfo
  extended_topology_first : Option (Option Nat)
deriving DecidableEq, Repr, Inhabited

/-- Lines 24-32, the spawned closure of `gather_all_xapic_ids`: pin, then read
the feature leaf; an absent leaf yields 0 via `map_or_else`.  A panic inside
the closure is an `Except.error` (the thread dies). -/
def xapicThreadBody (env : CoreEnv) : Except Unit Nat :=
  if env.pinPanics then .error ()
  else .ok ((env.feature_info.map fun f => f.initial_local_apic_id).getD 0)

/-- Lines 51-60, the spawned closure of `gather_all_x2apic_ids`: pin, then read
the extended-topology leaf; an absent leaf yields 0 via `map_or_else`, while a
present leaf with an empty iterator panics on `.unwrap()`. -/
def x2apicThreadBody (env : CoreEnv) : Except Unit Nat :=
  if env.pinPanics then .error ()
  else
    match env.extended_topology_first with
    | none => .ok 0
    | some none => .error ()
    | some (some x2apic_id) => .ok x2apic_id

/-- Lines 33-34 (and 61-62): `.join().unwrap_or(0)` — a unit whose thread
panicked contributes the sentinel 0 instead of aborting the program. -/
def joinUnwrapOr0 (r : Except Unit Nat) : Nat :=
  match r with
  | .ok v => v
  | .error _ => 0

/-- Lines 17-37: `gather_all_xapic_ids`, one unit of work per enumerated
logical processor, each contributing exactly one entry. -/
def gather_all_xapic_ids (core_ids : List CoreEnv) : List Nat :=
  core_ids.map fun env => joinUnwrapOr0 (xapicThreadBody env)

/-- Lines 44-65: `gather_all_x2apic_ids`. -/
def gather_all_x2apic_ids (core_ids : List CoreEnv) : List Nat :=
  core_ids.map fun env => joinUnwrapOr0 (x2apicThreadBody env)

/-- A unit of the xAPIC collector fails when its pin panics or its
identification read finds no feature leaf. -/
def xapicUnitFails (env : CoreEnv) : Prop :=
  env.pinPanics = true ∨ env.feature_info = none

/-- A unit of the x2APIC collector fails when its pin panics, the extended
leaf is absent, or the level iterator is empty. -/
def x2apicUnitFails (env : CoreEnv) : Prop :=
  env.pinPanics = true ∨ env.extended_topology_first = none ∨
    env.extended_topology_first = some none

/-- Observable scheduling events of the id collectors. -/
inductive ProbeEvent where
  | spawn (i : Nat)
  | pin (i : Nat)
  | read (i : Nat)
  | join (i : Nat)
deriving DecidableEq, Repr

/-- Events of unit `i`: the parent spawns the thread, the thread pins and then
reads, and the parent joins.  Because `.join()` is called immediately on the
freshly spawned handle inside the same `map` closure (lines 24-34), the parent
blocks until unit `i` finishes before the iterator produces unit `i + 1`, so
all events of unit `i` precede every event of later units. -/
def unitTrace (i : Nat) : List ProbeEvent :=
  [.spawn i, .pin i, .read i, .join i]

/-- Event trace of a collector run over `n` enumerated logical processors. -/
def gatherTrace : Nat → List ProbeEvent
  | 0 => []
  | n + 1 => gatherTrace n ++ unitTrace n

/-- Units `i` and `j` overlap in a trace when each one's spawn precedes the
other one's join, i.e. both are alive at the same time. -/
def overlappingUnits (t : List ProbeEvent) (i j : Nat) : Prop :=
  List.Sublist [ProbeEvent.spawn j, ProbeEvent.join i] t ∧
    List.Sublist [ProbeEvent.spawn i, ProbeEvent.join j] t

/-- A collector run over `n` units executes in true parallel when some two
distinct units overlap (this is what the claim of parallel execution asserts
of the trace). -/
def parallelExecution (t : List ProbeEvent) (n : Nat) : Prop :=
  ∃ i ∈ List.range n, ∃ j ∈ List.range n, i ≠ j ∧ overlappingUnits t i j

/-- The value left in one of the two shift variables by the scan loop: the
shift of the last level of type `t`, or the incoming value `d` when no level
of that type occurs. -/
def lastShiftFrom (t : TopologyType) (d : Nat) : List ExtendedTopologyLevel → Nat
  | [] => d
  | l :: ls =>
    lastShiftFrom t (if l.level_type = t then l.shift_right_for_next_apic_id else d) ls

/-- No level of the list has a type outside SMT and Core. -/
def noUnknownLevels (levels : List ExtendedTopologyLevel) : Prop :=
  ∀ l ∈ levels, l.level_type ≠ TopologyType.Unknown

/-- An SMT level with shift 1 (2 threads per core). -/
def lvlSMT1 : ExtendedTopologyLevel := ⟨0, .SMT, 2, 1⟩

/-- A second SMT level with shift 2, for exercising the overwrite behaviour. -/
def lvlSMT2 : ExtendedTopologyLevel := ⟨1, .SMT, 4, 2⟩

/-- A Core level with shift 4 (up to 8 cores). -/
def lvlCore4 : ExtendedTopologyLevel := ⟨1, .Core, 8, 4⟩

/-- A level of unsupported type. -/
def lvlUnknown : ExtendedTopologyLevel := ⟨2, .Unknown, 0, 0⟩

/-- A cpu with an extended-topology leaf but neither vendor limits leaf. -/
def cpuNoVendorLeaves : CpuState := ⟨none, some [lvlSMT1], none, none⟩

/-- A cpu whose extended-topology leaf reports an unsupported level type. -/
def cpuUnknownLevel : CpuState := ⟨none, some [lvlUnknown], none, none⟩

/-- A cpu with the two-level hierarchy of the end-to-end example. -/
def cpuEndToEnd : CpuState := ⟨none, some [lvlSMT1, lvlCore4], none, none⟩

instance (levels : List ExtendedTopologyLevel) : Decidable (noUnknownLevels levels) := by
  unfold noUnknownLevels
  infer_instance

instance (env : CoreEnv) : Decidable (xapicUnitFails env) := by
  unfold xapicUnitFails
  infer_instance

instance (env : CoreEnv) : Decidable (x2apicUnitFails env) := by
  unfold x2apicUnitFails
  infer_instance

instance (t : List ProbeEvent) (i j : Nat) : Decidable (overlappingUnits t i j) := by
  unfold overlappingUnits
  infer_instance

instance (t : List ProbeEvent) (n : Nat) : Decidable (parallelExecution t n) := by
  unfold parallelExecution
  infer_instance

/-- Collector environments for two processors: the first unit's pin panics,
the second unit's read finds no feature leaf. -/
def gatherEnvA : List CoreEnv := [⟨true, some ⟨4, 7⟩, some (some 7)⟩, ⟨false, none, none⟩]

/-- Collector environments for two processors: the first unit's read finds an
extended leaf with an empty iterator (its `.unwrap()` panics), the second unit
succeeds with x2APIC id 5. -/
def gatherEnvB : List CoreEnv := [⟨false, some ⟨4, 7⟩, some none⟩, ⟨false, some ⟨4, 5⟩, some (some 5)⟩]

/-! ## Bit-level helper lemmas -/

theorem testBit_u32Max (i : Nat) : u32Max.testBit i = decide (i < 32) :=
  Nat.testBit_two_pow_sub_one 32 i

theorem testBit_shl32 (x s i : Nat) :
    (shl32 x s).testBit i = (decide (i < 32) && (decide (s ≤ i) && x.testBit (i - s))) := by
  unfold shl32
  rw [Nat.testBit_mod_two_pow, Nat.testBit_shiftLeft]

theorem testBit_smt_mask {s : Nat} (hs : s ≤ 32) (i : Nat) :
    (smt_select_mask s).testBit i = decide (i < s) := by
  simp only [smt_select_mask, Nat.testBit_xor, testBit_shl32, testBit_u32Max]
  by_cases h1 : i < 32 <;> by_cases h2 : s ≤ i <;> by_cases h3 : i - s < 32 <;>
    simp [h1, h2, h3] <;> omega

set_option linter.unnecessarySeqFocus false in
theorem testBit_pkg_mask {c : Nat} (hc : c ≤ 32) (i : Nat) :
    (pkg_select_mask c).testBit i = (decide (c ≤ i) && decide (i < 32)) := by
  simp only [pkg_select_mask, testBit_shl32, testBit_u32Max]
  by_cases h1 : i < 32 <;> by_cases h2 : c ≤ i <;> by_cases h3 : i - c < 32 <;>
    simp [h1, h2, h3] <;> omega

theorem core_select_mask_eq_xor (s c : Nat) :
    core_select_mask s c = smt_select_mask c ^^^ smt_select_mask s := rfl

theorem testBit_core_mask {s c : Nat} (hsc : s ≤ c) (hc : c ≤ 32) (i : Nat) :
    (core_select_mask s c).testBit i = (decide (s ≤ i) && decide (i < c)) := by
  rw [core_select_mask_eq_xor, Nat.testBit_xor, testBit_smt_mask hc,
    testBit_smt_mask (le_trans hsc hc)]
  by_cases h1 : i < c <;> by_cases h2 : i < s <;> simp [h1, h2] <;> omega

theorem testBit_eq_false_of_lt_pow {x n i : Nat} (h : x < 2 ^ n) (hni : n ≤ i) :
    x.testBit i = false :=
  Nat.testBit_lt_two_pow (lt_of_lt_of_le h (Nat.pow_le_pow_right (by omega) hni))

/-! ## Claim theorems -/

/-- C1 counterexample: the spec's edge values for `cpuid_bits_needed` are the
loop's step counts, not its return values; the function actually returns 0 at
0, 8 at 255 and 1 at 1, so the claimed triple of equations is false. -/
theorem cpuid_bits_needed_claimed_edges_false :
    ¬ (cpuid_bits_needed 0 = 8 ∧ cpuid_bits_needed 255 = 0 ∧ cpuid_bits_needed 1 = 7) := by
  decide

/-- C1 (amended): `cpuid_bits_needed` returns the number of bits needed to
represent the count, namely 0 for input 0, 8 for input 255 and 1 for input 1
(the spec stated the complements 8, 0 and 7). -/
theorem cpuid_bits_needed_edges :
    cpuid_bits_needed 0 = 0 ∧ cpuid_bits_needed 255 = 8 ∧ cpuid_bits_needed 1 = 1 := by
  decide

/-- C2: for any shifts `s ≤ c < 32`, the three masks of
`enumerate_with_x2apic_ids` are pairwise disjoint and their bitwise union is
the all-ones 32-bit value. -/
theorem masks_partition (s c : Nat) (hsc : s ≤ c) (hc : c < 32) :
    (smt_select_mask s &&& core_select_mask s c = 0 ∧
     smt_select_mask s &&& pkg_select_mask c = 0 ∧
     core_select_mask s c &&& pkg_select_mask c = 0) ∧
    (smt_select_mask s ||| core_select_mask s c ||| pkg_select_mask c) = u32Max := by
  have hc' : c ≤ 32 := Nat.le_of_lt hc
  have hs' : s ≤ 32 := Nat.le_trans hsc hc'
  refine ⟨⟨?_, ?_, ?_⟩, ?_⟩ <;>
    (apply Nat.eq_of_testBit_eq
     intro i
     simp only [Nat.testBit_and, Nat.testBit_or, Nat.zero_testBit, testBit_u32Max,
       testBit_smt_mask hs', testBit_core_mask hsc hc', testBit_pkg_mask hc']
     by_cases h1 : i < s <;> by_cases h2 : s ≤ i <;> by_cases h3 : i < c <;>
       by_cases h4 : c ≤ i <;> by_cases h5 : i < 32 <;> simp [h1, h2, h3, h4, h5] <;> omega)

/-- C2 witness at shifts 1 and 4. -/
theorem masks_partition_witness :
    (smt_select_mask 1 &&& core_select_mask 1 4 = 0 ∧
     smt_select_mask 1 &&& pkg_select_mask 4 = 0 ∧
     core_select_mask 1 4 &&& pkg_select_mask 4 = 0) ∧
    (smt_select_mask 1 ||| core_select_mask 1 4 ||| pkg_select_mask 4) = u32Max :=
  masks_partition 1 4 (by decide) (by decide)

/-- C3: decomposing the raw id composed from field-bounded `(pkg, core, smt)`
components with the masks of `enumerate_with_x2apic_ids` returns exactly those
components: `decompose` inverts field composition. -/
theorem decompose_roundtrip (s c pkg core smt : Nat) (hsc : s ≤ c) (hc : c < 32)
    (hsmt : smt < 2 ^ s) (hcore : core < 2 ^ (c - s)) (hpkg : pkg < 2 ^ (32 - c)) :
    decompose s c ((pkg <<< c) ||| (core <<< s) ||| smt) = ⟨pkg, core, smt⟩ := by
  have hc' : c ≤ 32 := Nat.le_of_lt hc
  have hs' : s ≤ 32 := Nat.le_trans hsc hc'
  unfold decompose
  rw [DecodedId.mk.injEq]
  refine ⟨?_, ?_, ?_⟩
  · apply Nat.eq_of_testBit_eq
    intro i
    rw [Nat.testBit_shiftRight]
    simp only [Nat.testBit_and, Nat.testBit_or, Nat.testBit_shiftLeft, testBit_pkg_mask hc']
    have e1 : c + i - c = i := by omega
    by_cases h5 : c + i < 32
    · have hsb : smt.testBit (c + i) = false := testBit_eq_false_of_lt_pow hsmt (by omega)
      have hcb : core.testBit (c + i - s) = false := testBit_eq_false_of_lt_pow hcore (by omega)
      simp [e1, h5, hsb, hcb, Nat.le_add_right]
    · have hpb : pkg.testBit i = false := testBit_eq_false_of_lt_pow hpkg (by omega)
      simp [h5, hpb]
  · apply Nat.eq_of_testBit_eq
    intro i
    rw [Nat.testBit_shiftRight]
    simp only [Nat.testBit_and, Nat.testBit_or, Nat.testBit_shiftLeft,
      testBit_core_mask hsc hc']
    have e1 : s + i - s = i := by omega
    by_cases h3 : s + i < c
    · have hsb : smt.testBit (s + i) = false := testBit_eq_false_of_lt_pow hsmt (by omega)
      have hpg : ¬ c ≤ s + i := by omega
      simp [e1, h3, hsb, hpg, Nat.le_add_right]
    · have hcb : core.testBit i = false := testBit_eq_false_of_lt_pow hcore (by omega)
      simp [h3, hcb]
  · apply Nat.eq_of_testBit_eq
    intro i
    simp only [Nat.testBit_and, Nat.testBit_or, Nat.testBit_shiftLeft, testBit_smt_mask hs']
    by_cases h1 : i < s
    · have hpg : ¬ c ≤ i := by omega
      have hcg : ¬ s ≤ i := by omega
      simp [h1, hpg, hcg]
    · have hsb : smt.testBit i = false := testBit_eq_false_of_lt_pow hsmt (by omega)
      simp [h1, hsb]

/-- C3 witness: shifts 1 and 4, components (pkg, core, smt) = (2, 0, 1). -/
theorem decompose_roundtrip_witness :
    decompose 1 4 ((2 <<< 4) ||| (0 <<< 1) ||| 1) = ⟨2, 0, 1⟩ :=
  decompose_roundtrip 1 4 2 0 1 (by decide) (by decide) (by decide) (by decide) (by decide)

/-- C8: end-to-end extended-path decoding with levels SMT(shift 1) and
Core(shift 4): the raw ids 0, 1, 16, 17, 32, 33 decode to the expected
(package, core, smt) triples. -/
theorem end_to_end_x2apic :
    enumerate_with_x2apic_ids cpuEndToEnd [0, 1, 16, 17, 32, 33] =
      .ok [(0, ⟨0, 0, 0⟩), (1, ⟨0, 0, 1⟩), (16, ⟨1, 0, 0⟩),
           (17, ⟨1, 0, 1⟩), (32, ⟨2, 0, 0⟩), (33, ⟨2, 0, 1⟩)] := by
  decide

theorem scanLevels_eq_lastShiftFrom (levels : List ExtendedTopologyLevel) (s c : Nat)
    (h : noUnknownLevels levels) :
    scanLevels levels (s, c) =
      .ok (lastShiftFrom .SMT s levels, lastShiftFrom .Core c levels) := by
  induction levels generalizing s c with
  | nil => rfl
  | cons l ls ih =>
    have hl : l.level_type ≠ TopologyType.Unknown := h l (List.mem_cons_self l ls)
    have htail : noUnknownLevels ls := fun m hm => h m (List.mem_cons_of_mem l hm)
    cases htype : l.level_type with
    | SMT => simp [scanLevels, lastShiftFrom, htype, ih _ _ htail]
    | Core => simp [scanLevels, lastShiftFrom, htype, ih _ _ htail]
    | Unknown => exact absurd htype hl

/-- C4 counterexample: with two SMT levels of shifts 1 then 2, the scan
records shift 2; under the claim (first level wins, later levels do not
replace it) the result would be shifts (1, 0). -/
theorem compute_shifts_first_wins_false :
    compute_shifts [lvlSMT1, lvlSMT2] = .ok (2, 0) ∧
    compute_shifts [lvlSMT1, lvlSMT2] ≠ .ok (1, 0) := by
  decide

/-- C4 (amended): the scan records, for each of the two tier types, the
`shift_right_for_next_apic_id` of the LAST level of that type (each matching
level overwrites the recorded shift; 0 when no level of the type occurs). -/
theorem compute_shifts_last_wins (levels : List ExtendedTopologyLevel)
    (h : noUnknownLevels levels) :
    compute_shifts levels =
      .ok (lastShiftFrom .SMT 0 levels, lastShiftFrom .Core 0 levels) :=
  scanLevels_eq_lastShiftFrom levels 0 0 h

/-- C4 witness: on the two-SMT-level list the recorded SMT shift is the last
one, 2. -/
theorem compute_shifts_last_wins_witness :
    compute_shifts [lvlSMT1, lvlSMT2] = .ok (2, 0) ∧
    lastShiftFrom .SMT 0 [lvlSMT1, lvlSMT2] = 2 :=
  ⟨compute_shifts_last_wins [lvlSMT1, lvlSMT2] (by decide), by decide⟩

theorem scanLevels_unknown_error (levels : List ExtendedTopologyLevel) (s c : Nat)
    (h : ∃ l ∈ levels, l.level_type = TopologyType.Unknown) :
    scanLevels levels (s, c) = .error .UnsupportedTopologyCategory := by
  induction levels generalizing s c with
  | nil => simp at h
  | cons l ls ih =>
    cases htype : l.level_type with
    | SMT =>
      have htail : ∃ m ∈ ls, m.level_type = TopologyType.Unknown := by
        rcases h with ⟨m, hm, hmt⟩
        rcases List.mem_cons.mp hm with rfl | hm'
        · rw [htype] at hmt; cases hmt
        · exact ⟨m, hm', hmt⟩
      simp [scanLevels, htype, ih _ _ htail]
    | Core =>
      have htail : ∃ m ∈ ls, m.level_type = TopologyType.Unknown := by
        rcases h with ⟨m, hm, hmt⟩
        rcases List.mem_cons.mp hm with rfl | hm'
        · rw [htype] at hmt; cases hmt
        · exact ⟨m, hm', hmt⟩
      simp [scanLevels, htype, ih _ _ htail]
    | Unknown => simp [scanLevels, htype]

/-- C6: a level whose type is neither SMT nor Core is fatal: whenever the
extended leaf contains a level of Unknown type, `enumerate_with_x2apic_ids`
fails with the unsupported-topology-category condition instead of skipping
the level. -/
theorem enumerate_x2apic_unknown_level_fatal (cpu : CpuState) (gathered : List Nat)
    (levels : List ExtendedTopologyLevel)
    (hleaf : cpu.extended_topology_info = some levels)
    (h : ∃ l ∈ levels, l.level_type = TopologyType.Unknown) :
    enumerate_with_x2apic_ids cpu gathered = .error .UnsupportedTopologyCategory := by
  have hs : x2apicShifts cpu = .error .UnsupportedTopologyCategory := by
    unfold x2apicShifts
    rw [hleaf]
    exact scanLevels_unknown_error levels 0 0 h
  unfold enumerate_with_x2apic_ids
  rw [hs]
  rfl

/-- C6 witness: one Unknown level makes the extended enumeration fail. -/
theorem enumerate_x2apic_unknown_level_fatal_witness :
    enumerate_with_x2apic_ids cpuUnknownLevel [0] = .error .UnsupportedTopologyCategory :=
  enumerate_x2apic_unknown_level_fatal cpuUnknownLevel [0] [lvlUnknown] rfl (by decide)

theorem checkDisplayLevels_ok (levels : List ExtendedTopologyLevel)
    (h : noUnknownLevels levels) : checkDisplayLevels levels = .ok () := by
  induction levels with
  | nil => rfl
  | cons l ls ih =>
    have hl : l.level_type ≠ TopologyType.Unknown := h l (List.mem_cons_self l ls)
    have htail : noUnknownLevels ls := fun m hm => h m (List.mem_cons_of_mem l hm)
    cases htype : l.level_type with
    | SMT => simp [checkDisplayLevels, htype, ih htail]
    | Core => simp [checkDisplayLevels, htype, ih htail]
    | Unknown => exact absurd htype hl

theorem get_processor_limits_no_vendor_leaf (cpu : CpuState)
    (h1 : cpu.processor_capacity_feature_info = none)
    (h2 : cpu.cache_parameters = none) :
    get_processor_limits cpu = .error .UnsupportedCpu := by
  unfold get_processor_limits
  rw [h1, h2]

theorem enumerate_xapic_propagates_limits_error (cpu : CpuState) (gathered : List Nat)
    (e : TopoError) (h : get_processor_limits cpu = .error e) :
    enumerate_with_xapic_ids cpu gathered = .error e := by
  unfold enumerate_with_xapic_ids
  rw [h]
  rfl

/-- C5 counterexample: on a cpu whose extended-topology leaf is present (and
scans fine, to shifts (1, 0)) but that has neither vendor limits leaf, the
driver does not use the extended path alone — it still fails with
`UnsupportedCpu` from the unconditionally-executed legacy path, although the
extended-topology leaf resolves. -/
theorem mode_selection_false :
    cpuNoVendorLeaves.extended_topology_info = some [lvlSMT1] ∧
    compute_shifts [lvlSMT1] = .ok (1, 0) ∧
    mainRun cpuNoVendorLeaves [] [] = .error .UnsupportedCpu := by
  decide

/-- C5 (amended): the driver selects no mode: it always runs the legacy path
and then the extended path.  It fails with `UnsupportedCpu` whenever both the
processor-capacity leaf and the cache-parameter leaf are absent — regardless
of extended-topology presence (provided the display scan itself does not
abort first on an Unknown level); `get_processor_limits` alone fails with
`UnsupportedCpu` exactly under that two-leaf absence. -/
theorem main_runs_legacy_unconditionally (cpu : CpuState) (a b : List Nat)
    (h1 : cpu.processor_capacity_feature_info = none)
    (h2 : cpu.cache_parameters = none)
    (h3 : noUnknownLevels (cpu.extended_topology_info.getD [])) :
    mainRun cpu a b = .error .UnsupportedCpu ∧
    get_processor_limits cpu = .error .UnsupportedCpu := by
  have hgpl := get_processor_limits_no_vendor_leaf cpu h1 h2
  refine ⟨?_, hgpl⟩
  have hdt : displayTopology cpu = .ok () := by
    unfold displayTopology
    cases hext : cpu.extended_topology_info with
    | none => rfl
    | some levels =>
      apply checkDisplayLevels_ok
      intro m hm
      have h3' := h3
      rw [hext] at h3'
      exact h3' m (List.mem_reverse.mp hm)
  unfold mainRun
  rw [hdt, enumerate_xapic_propagates_limits_error cpu a _ hgpl]
  rfl

/-- C5 witness: the no-vendor-leaves cpu with an extended leaf present. -/
theorem main_runs_legacy_unconditionally_witness :
    mainRun cpuNoVendorLeaves [] [] = .error .UnsupportedCpu ∧
    get_processor_limits cpuNoVendorLeaves = .error .UnsupportedCpu :=
  main_runs_legacy_unconditionally cpuNoVendorLeaves [] [] rfl rfl (by decide)

theorem xapic_unit_fails_sentinel (env : CoreEnv) (h : xapicUnitFails env) :
    joinUnwrapOr0 (xapicThreadBody env) = 0 := by
  rcases h with h | h
  · simp [xapicThreadBody, joinUnwrapOr0, h]
  · cases hp : env.pinPanics <;> simp [xapicThreadBody, joinUnwrapOr0, hp, h]

theorem x2apic_unit_fails_sentinel (env : CoreEnv) (h : x2apicUnitFails env) :
    joinUnwrapOr0 (x2apicThreadBody env) = 0 := by
  rcases h with h | h | h
  · simp [x2apicThreadBody, joinUnwrapOr0, h]
  · cases hp : env.pinPanics <;> simp [x2apicThreadBody, joinUnwrapOr0, hp, h]
  · cases hp : env.pinPanics <;> simp [x2apicThreadBody, joinUnwrapOr0, hp, h]

/-- C7: both collectors produce exactly one entry per enumerated logical
processor, and every unit whose pin panics or whose identification read fails
contributes the sentinel 0 at its own position; the collectors are total
functions, so no single unit's failure aborts the run. -/
theorem gather_ids_fault_tolerant (coresA coresB : List CoreEnv) :
    (gather_all_xapic_ids coresA).length = coresA.length ∧
    (gather_all_x2apic_ids coresB).length = coresB.length ∧
    (∀ i, i < coresA.length → xapicUnitFails (coresA.getD i default) →
      (gather_all_xapic_ids coresA).getD i 1 = 0) ∧
    (∀ i, i < coresB.length → x2apicUnitFails (coresB.getD i default) →
      (gather_all_x2apic_ids coresB).getD i 1 = 0) := by
  refine ⟨by simp [gather_all_xapic_ids], by simp [gather_all_x2apic_ids], ?_, ?_⟩
  · intro i hi hfail
    unfold gather_all_xapic_ids
    rw [List.getD_eq_getElem?_getD, List.getElem?_map, List.getElem?_eq_getElem hi]
    rw [List.getD_eq_getElem?_getD, List.getElem?_eq_getElem hi] at hfail
    simp only [Option.map_some, Option.getD_some] at hfail ⊢
    exact xapic_unit_fails_sentinel _ hfail
  · intro i hi hfail
    unfold gather_all_x2apic_ids
    rw [List.getD_eq_getElem?_getD, List.getElem?_map, List.getElem?_eq_getElem hi]
    rw [List.getD_eq_getElem?_getD, List.getElem?_eq_getElem hi] at hfail
    simp only [Option.map_some, Option.getD_some] at hfail ⊢
    exact x2apic_unit_fails_sentinel _ hfail

/-- C7 witness: a pin panic (xAPIC, unit 0) and an empty-iterator read panic
(x2APIC, unit 0) both degrade to sentinel 0 while two entries are kept. -/
theorem gather_ids_fault_tolerant_witness :
    (gather_all_xapic_ids gatherEnvA).length = 2 ∧
    (gather_all_x2apic_ids gatherEnvB).length = 2 ∧
    (gather_all_xapic_ids gatherEnvA).getD 0 1 = 0 ∧
    (gather_all_x2apic_ids gatherEnvB).getD 0 1 = 0 :=
  ⟨(gather_ids_fault_tolerant gatherEnvA gatherEnvB).1,
   (gather_ids_fault_tolerant gatherEnvA gatherEnvB).2.1,
   (gather_ids_fault_tolerant gatherEnvA gatherEnvB).2.2.1 0 (by decide) (by decide),
   (gather_ids_fault_tolerant gatherEnvA gatherEnvB).2.2.2 0 (by decide) (by decide)⟩

/-- C9 counterexample: in the collector's trace over two logical processors no
two units are ever alive at the same time — `.join()` is called on each
freshly spawned handle inside the same `map` closure, so the units run one at
a time and the claimed true-parallel execution is false. -/
theorem gather_trace_not_parallel : ¬ parallelExecution (gatherTrace 2) 2 := by
  decide

theorem unitTrace_sublist_gatherTrace {i n : Nat} (h : i < n) :
    List.Sublist (unitTrace i) (gatherTrace n) := by
  induction n with
  | zero => omega
  | succ m ih =>
    simp only [gatherTrace]
    rcases Nat.lt_succ_iff_lt_or_eq.mp h with h' | h'
    · exact (ih h').trans (List.sublist_append_left _ _)
    · subst h'
      exact List.sublist_append_right _ _

theorem pin_before_read_in_unit (i : Nat) :
    List.Sublist [ProbeEvent.pin i, ProbeEvent.read i] (unitTrace i) := by
  simp only [unitTrace]
  exact List.Sublist.cons _
    (List.sublist_append_left [ProbeEvent.pin i, ProbeEvent.read i] [ProbeEvent.join i])

theorem join_mem_gatherTrace {i n : Nat} (h : i < n) :
    ProbeEvent.join i ∈ gatherTrace n :=
  (unitTrace_sublist_gatherTrace h).subset (by simp [unitTrace])

/-- C9 (amended): within each unit the pin event precedes the read event, and
the collector's trace contains the join of every spawned unit (it returns
only after all complete); but the units do not overlap: each unit is joined
before the next one is spawned, so execution is strictly sequential, not
parallel. -/
theorem gather_collector_sequential (n : Nat) :
    (∀ i, i < n →
      List.Sublist [ProbeEvent.pin i, ProbeEvent.read i] (gatherTrace n) ∧
      ProbeEvent.join i ∈ gatherTrace n) ∧
    (∀ i j, i < j → j < n →
      List.Sublist [ProbeEvent.join i, ProbeEvent.spawn j] (gatherTrace n)) := by
  constructor
  · intro i hi
    exact ⟨(pin_before_read_in_unit i).trans (unitTrace_sublist_gatherTrace hi),
      join_mem_gatherTrace hi⟩
  · intro i j hij hj
    induction n with
    | zero => omega
    | succ m ih =>
      simp only [gatherTrace]
      rcases Nat.lt_succ_iff_lt_or_eq.mp hj with h' | h'
      · exact (ih h').trans (List.sublist_append_left _ _)
      · subst h'
        exact List.Sublist.append
          (List.singleton_sublist.mpr (join_mem_gatherTrace hij))
          (List.singleton_sublist.mpr (by simp [unitTrace]))

/-- C9 witness: trace of two units — pin 0 before read 0, join 0 present, and
join 0 before spawn 1. -/
theorem gather_collector_sequential_witness :
    List.Sublist [ProbeEvent.pin 0, ProbeEvent.read 0] (gatherTrace 2) ∧
    ProbeEvent.join 0 ∈ gatherTrace 2 ∧
    List.Sublist [ProbeEvent.join 0, ProbeEvent.spawn 1] (gatherTrace 2) :=
  ⟨((gather_collector_sequential 2).1 0 (by decide)).1,
   ((gather_collector_sequential 2).1 0 (by decide)).2,
   (gather_collector_sequential 2).2 0 1 (by decide) (by decide)⟩

theorem nextPow2_le_of_le {mlp : Nat} (h : mlp ≤ 128) : nextPow2 mlp ≤ 128 := by
  unfold nextPow2
  split_ifs <;> omega

theorem nextPow2_eq_of_gt {mlp : Nat} (h : 128 < mlp) : nextPow2 mlp = 256 := by
  unfold nextPow2
  split_ifs <;> omega

/-- C10 counterexample: at `max_logical_processor_ids = 200` the claim's
precondition holds with `max_cores_per_package = 4` (cores ≥ 1 and
`next_power_of_two(200) = 256` ≥ 4), yet the width computation is not total
there: the `u8` `next_power_of_two` overflows (a debug-build panic) before
the division ever runs — which also preempts the claimed division by zero at
`max_cores_per_package = 0`. -/
theorem legacy_smt_arg_total_claim_false :
    (1 ≤ 4 ∧ 4 ≤ nextPow2 200) ∧
    legacy_smt_arg 200 4 = .error .NextPowOverflow ∧
    legacy_smt_arg 200 0 = .error .NextPowOverflow ∧
    legacy_smt_arg 200 0 ≠ .error .DivByZero := by
  decide

/-- C10 (amended): the legacy width argument aborts on the `u8`
`next_power_of_two` overflow whenever `max_logical_processor_ids > 128`
(before the division, so ahead of any other failure); when
`max_logical_processor_ids ≤ 128` it divides by zero at
`max_cores_per_package = 0` and underflows the `u8` subtraction when the
quotient is 0; it is total — all three error branches unreachable — under
the precondition `max_logical_processor_ids ≤ 128 ∧ 1 ≤ max_cores_per_package
∧ max_cores_per_package ≤ next_power_of_two(max_logical_processor_ids)`. -/
theorem legacy_smt_arg_domain :
    (∀ mlp cores, 128 < mlp → legacy_smt_arg mlp cores = .error .NextPowOverflow) ∧
    (∀ mlp, mlp ≤ 128 → legacy_smt_arg mlp 0 = .error .DivByZero) ∧
    (∀ mlp cores, mlp ≤ 128 → 0 < cores → nextPow2 mlp < cores →
      legacy_smt_arg mlp cores = .error .SubOverflow) ∧
    (∀ mlp cores, mlp ≤ 128 → 1 ≤ cores → cores ≤ nextPow2 mlp →
      legacy_smt_arg mlp cores = .ok (nextPow2 mlp / cores - 1)) := by
  have hpow : (2 : Nat) ^ 8 = 256 := by norm_num
  refine ⟨?_, ?_, ?_, ?_⟩
  · intro mlp cores h
    have h256 := nextPow2_eq_of_gt h
    unfold legacy_smt_arg
    rw [if_pos (by omega)]
  · intro mlp h
    have hle := nextPow2_le_of_le h
    unfold legacy_smt_arg
    rw [if_neg (by omega)]
    rfl
  · intro mlp cores h h0 hlt
    have hle := nextPow2_le_of_le h
    unfold legacy_smt_arg
    rw [if_neg (by omega), if_neg (by omega), if_pos (Nat.div_eq_of_lt hlt)]
  · intro mlp cores h h1 h2
    have hle := nextPow2_le_of_le h
    have hq : 1 ≤ nextPow2 mlp / cores := (Nat.one_le_div_iff (by omega)).mpr h2
    unfold legacy_smt_arg
    rw [if_neg (by omega), if_neg (by omega), if_neg (by omega)]

/-- C10 witness: mlp 200 overflows; (8, 0) divides by zero;
nextPow2 1 = 1 < 3 underflows; (8, 4) is total with value 1. -/
theorem legacy_smt_arg_domain_witness :
    legacy_smt_arg 200 4 = .error .NextPowOverflow ∧
    legacy_smt_arg 8 0 = .error .DivByZero ∧
    legacy_smt_arg 1 3 = .error .SubOverflow ∧
    legacy_smt_arg 8 4 = .ok 1 :=
  ⟨legacy_smt_arg_domain.1 200 4 (by decide),
   legacy_smt_arg_domain.2.1 8 (by decide),
   legacy_smt_arg_domain.2.2.1 1 3 (by decide) (by decide) (by decide),
   legacy_smt_arg_domain.2.2.2 8 4 (by decide) (by decide) (by decide)⟩

end RustCpuid
